import Mathlib

/-!
Shallow embedding of the card-operations core of the notecards repository
(`src/hooks/useCardOperations.ts`), covering the reordering subsystem:
`reorderCards`, `moveCardUp`, `moveCardDown`, and the CRUD operations
`createCard`, `updateCard`, `deleteCard`.

Modelling decisions:
* Firestore is a pair of document lists (`cards`, `decks`); `updateDoc`
  rejects when the referenced document does not exist, `deleteDoc` succeeds
  regardless, and a `writeBatch` commit applies all of its updates as a
  single state change or none of them.
* Timestamps (`serverTimestamp()` and client `new Date()`) are abstract
  ticks, a `Nat` parameter `now` supplied to each call.
* `orderIndex` is a JS number that stays integral in this code, modelled
  as `Int` (card creation computes `maxOrderIndex + 1` starting from `-1`).
* Network success is a `Bool` parameter `pOk`: when false the first awaited
  storage call rejects (and a `writeBatch.commit` applies nothing).
* The React `loading` / `error` state is threaded as an explicit `UiState`;
  every `setLoading` / `setError` call and every awaited storage call is
  also recorded in an event trace, in source order.
* Thrown `Error` values are mapped to the spec's taxonomy, keeping the
  source's message strings: `Unauthenticated` = "User must be
  authenticated"; `InvalidArgument` carries the source message;
  `InvalidMove` = "Card cannot be moved up"/"down"; `PersistenceError`
  carries the catch-block fallback message (the underlying storage error
  text is abstracted to that fallback).
-/

/-- Card document (`src/types/index.ts`). -/
structure Card where
  id : String
  deckId : String
  title : String
  body : String
  orderIndex : Int
  createdAt : Nat
  updatedAt : Nat
deriving DecidableEq, Inhabited

/-- Deck document (`src/types/index.ts`); `cardCount` is the cached count. -/
structure Deck where
  id : String
  title : String
  ownerId : String
  cardCount : Nat
  createdAt : Nat
  updatedAt : Nat
deriving DecidableEq, Inhabited

/-- The Firestore state visible to the hook: the `cards` and `decks`
document collections. -/
structure Store where
  cards : List Card
  decks : List Deck
deriving DecidableEq, Inhabited

/-- The hook's React state: `loading` and `error`. -/
structure UiState where
  loading : Bool
  error : Option String
deriving DecidableEq, Inhabited

/-- Error taxonomy of the spec, each constructor standing for the
corresponding `throw new Error(...)` in the source. -/
inductive Err where
  | Unauthenticated
  | InvalidArgument (msg : String)
  | InvalidMove (msg : String)
  | PersistenceError (msg : String)
deriving DecidableEq

/-- One observable step of an operation: a `setLoading` call, a `setError`
call, or an awaited storage round trip. -/
inductive Event where
  | setLoading (b : Bool)
  | setErr (e : Option String)
  | storage
deriving DecidableEq

deriving instance DecidableEq for Except

/-- Result of one hook operation: the resolved/rejected promise value, the
Firestore state after the call, the React state after the call, and the
trace of observable steps in source order. -/
structure Outcome (α : Type) where
  res : Except Err α
  store : Store
  ui : UiState
  trace : List Event
deriving DecidableEq

/-- `err.message` of a modelled error (used by the catch blocks). -/
def errMsg : Err → String
  | .Unauthenticated => "User must be authenticated"
  | .InvalidArgument m => m
  | .InvalidMove m => m
  | .PersistenceError m => m

/-- Firestore `updateDoc` on the `cards` collection: rejects (`none`) when
no document has the given id, otherwise applies `f` to that document. -/
def updateCardDoc (cid : String) (f : Card → Card) (st : Store) : Option Store :=
  if st.cards.any (fun c => c.id == cid) then
    some { st with cards := st.cards.map (fun c => if c.id == cid then f c else c) }
  else none

/-- Firestore `updateDoc` on the `decks` collection. -/
def updateDeckDoc (did : String) (f : Deck → Deck) (st : Store) : Option Store :=
  if st.decks.any (fun d => d.id == did) then
    some { st with decks := st.decks.map (fun d => if d.id == did then f d else d) }
  else none

/-- JS `Array.prototype.findIndex`, with `none` standing for `-1`. -/
def findIndex (p : Card → Bool) : List Card → Option Nat
  | [] => none
  | c :: cs => if p c then some 0 else (findIndex p cs).map (· + 1)

/-- The card updates of the `reorderCards` write batch: one
`batch.update(cardRef, { orderIndex: index, updatedAt: now })` per entry of
`cardIds`, `k` counting up from the `forEach` index; a later update to the
same document overrides an earlier one, as in a Firestore write batch. -/
def applyCardOrder (now : Nat) : List String → Int → List Card → List Card
  | [], _, cs => cs
  | cid :: rest, k, cs =>
    applyCardOrder now rest (k + 1)
      (cs.map (fun c => if c.id == cid then { c with orderIndex := k, updatedAt := now } else c))

/-- A `writeBatch.commit` succeeds only when every document referenced by a
`batch.update` exists (each card id and the deck). -/
def reorderBatchOk (deckId : String) (cardIds : List String) (st : Store) : Bool :=
  cardIds.all (fun cid => st.cards.any (fun c => c.id == cid)) &&
    st.decks.any (fun d => d.id == deckId)

/-- The whole reorder batch applied as one atomic state change: every card
update plus the deck timestamp update. -/
def applyReorderBatch (deckId : String) (now : Nat) (cardIds : List String)
    (st : Store) : Store :=
  { cards := applyCardOrder now cardIds 0 st.cards,
    decks := st.decks.map (fun d => if d.id == deckId then { d with updatedAt := now } else d) }

/-- `reorderCards` (useCardOperations.ts lines 173-215): auth guard, empty
guard, then one atomic batch writing `orderIndex := k` and a fresh card
timestamp for the id at each position `k`, plus the deck timestamp. -/
def reorderCards (user : Option String) (deckId : String) (now : Nat) (pOk : Bool)
    (cardIds : List String) (st : Store) (ui : UiState) : Outcome Unit :=
  match user with
  | none => ⟨.error .Unauthenticated, st, ui, []⟩
  | some _ =>
    if cardIds.isEmpty then
      ⟨.error (.InvalidArgument "Card IDs are required"), st, ui, []⟩
    else if reorderBatchOk deckId cardIds st && pOk then
      ⟨.ok (), applyReorderBatch deckId now cardIds st, ⟨false, none⟩,
        [.setLoading true, .setErr none, .storage, .setLoading false, .setErr none]⟩
    else
      ⟨.error (.PersistenceError "Failed to reorder cards"), st,
        ⟨false, some "Failed to reorder cards"⟩,
        [.setLoading true, .setErr none, .storage,
          .setErr (some "Failed to reorder cards"), .setLoading false]⟩

/-- JS swap of positions `i-1` and `i` in `moveCardUp`
(`newCardOrder[cardIndex - 1] = cardToMove; newCardOrder[cardIndex] = cardAbove`). -/
def swapWithPrev (cards : List Card) (i : Nat) : List Card :=
  (cards.set (i - 1) (cards.getD i default)).set i (cards.getD (i - 1) default)

/-- JS swap of positions `i` and `i+1` in `moveCardDown`. -/
def swapWithNext (cards : List Card) (i : Nat) : List Card :=
  (cards.set (i + 1) (cards.getD i default)).set i (cards.getD (i + 1) default)

/-- The pure ordering computation inside `moveCardUp` (lines 222-241):
locate the card (`findIndex`), reject `cardIndex <= 0` (not found or
already first), otherwise swap with the card above and emit the id list. -/
def computeMoveUp (cardId : String) (currentCards : List Card) :
    Except Err (List String) :=
  match findIndex (fun c => c.id == cardId) currentCards with
  | none => .error (.InvalidMove "Card cannot be moved up")
  | some i =>
    if i = 0 then .error (.InvalidMove "Card cannot be moved up")
    else .ok ((swapWithPrev currentCards i).map Card.id)

/-- The pure ordering computation inside `moveCardDown` (lines 258-277):
reject `cardIndex >= currentCards.length - 1 || cardIndex === -1`,
otherwise swap with the card below and emit the id list. -/
def computeMoveDown (cardId : String) (currentCards : List Card) :
    Except Err (List String) :=
  match findIndex (fun c => c.id == cardId) currentCards with
  | none => .error (.InvalidMove "Card cannot be moved down")
  | some i =>
    if currentCards.length ≤ i + 1 then .error (.InvalidMove "Card cannot be moved down")
    else .ok ((swapWithNext currentCards i).map Card.id)

/-- `moveCardUp` (lines 217-251): auth guard, position guard, then the
computed order is passed whole to `reorderCards`; its failure is caught,
`setError`/`setLoading(false)` run again, and the error is rethrown. -/
def moveCardUp (user : Option String) (deckId : String) (now : Nat) (pOk : Bool)
    (cardId : String) (currentCards : List Card) (st : Store) (ui : UiState) :
    Outcome Unit :=
  match user with
  | none => ⟨.error .Unauthenticated, st, ui, []⟩
  | some u =>
    match computeMoveUp cardId currentCards with
    | .error e => ⟨.error e, st, ui, []⟩
    | .ok cardIds =>
      let inner := reorderCards (some u) deckId now pOk cardIds st ⟨true, none⟩
      match inner.res with
      | .ok _ => ⟨.ok (), inner.store, inner.ui,
          [.setLoading true, .setErr none] ++ inner.trace⟩
      | .error e =>
        ⟨.error e, inner.store, ⟨false, some (errMsg e)⟩,
          [.setLoading true, .setErr none] ++ inner.trace ++
            [.setErr (some (errMsg e)), .setLoading false]⟩

/-- `moveCardDown` (lines 253-287), same shape as `moveCardUp`. -/
def moveCardDown (user : Option String) (deckId : String) (now : Nat) (pOk : Bool)
    (cardId : String) (currentCards : List Card) (st : Store) (ui : UiState) :
    Outcome Unit :=
  match user with
  | none => ⟨.error .Unauthenticated, st, ui, []⟩
  | some u =>
    match computeMoveDown cardId currentCards with
    | .error e => ⟨.error e, st, ui, []⟩
    | .ok cardIds =>
      let inner := reorderCards (some u) deckId now pOk cardIds st ⟨true, none⟩
      match inner.res with
      | .ok _ => ⟨.ok (), inner.store, inner.ui,
          [.setLoading true, .setErr none] ++ inner.trace⟩
      | .error e =>
        ⟨.error e, inner.store, ⟨false, some (errMsg e)⟩,
          [.setLoading true, .setErr none] ++ inner.trace ++
            [.setErr (some (errMsg e)), .setLoading false]⟩

/-- `createCard` (lines 25-90): guards, then `getDocs` over the deck's
cards, `addDoc` of the new card with `orderIndex := maxOrderIndex + 1`
(reduce with initial `-1`), then `updateDoc` of the deck's `cardCount` and
timestamp. `newId` is the Firestore-generated document id. -/
def createCard (user : Option String) (deckId : String) (now : Nat) (pOk : Bool)
    (newId : String) (title : String) (body : String) (st : Store) (ui : UiState) :
    Outcome Card :=
  match user with
  | none => ⟨.error .Unauthenticated, st, ui, []⟩
  | some _ =>
    if deckId = "" then ⟨.error (.InvalidArgument "Deck ID is required"), st, ui, []⟩
    else if title.trim = "" then
      ⟨.error (.InvalidArgument "Card title is required"), st, ui, []⟩
    else if pOk then
      let existing := st.cards.filter (fun c => c.deckId == deckId)
      let maxOrderIndex : Int := existing.foldl (fun m c => max m c.orderIndex) (-1)
      let newCard : Card :=
        ⟨newId, deckId, title.trim, body.trim, maxOrderIndex + 1, now, now⟩
      let st1 : Store := { st with cards := st.cards ++ [newCard] }
      match updateDeckDoc deckId
          (fun d => { d with cardCount := existing.length + 1, updatedAt := now }) st1 with
      | some st2 =>
        ⟨.ok newCard, st2, ⟨false, none⟩,
          [.setLoading true, .setErr none, .storage, .storage, .storage,
            .setLoading false, .setErr none]⟩
      | none =>
        ⟨.error (.PersistenceError "Failed to create card"), st1,
          ⟨false, some "Failed to create card"⟩,
          [.setLoading true, .setErr none, .storage, .storage, .storage,
            .setErr (some "Failed to create card"), .setLoading false]⟩
    else
      ⟨.error (.PersistenceError "Failed to create card"), st,
        ⟨false, some "Failed to create card"⟩,
        [.setLoading true, .setErr none, .storage,
          .setErr (some "Failed to create card"), .setLoading false]⟩

/-- The update payload of `updateCard`:
`Partial<Omit<Card, 'id' | 'deckId' | 'createdAt' | 'orderIndex'>>` — only
`title`, `body` and `updatedAt` can appear, each optionally. -/
structure CardUpdate where
  title : Option String := none
  body : Option String := none
  updatedAt : Option Nat := none
deriving DecidableEq, Inhabited

/-- `{ ...updates, updatedAt: serverTimestamp() }` applied to a card: the
spread fields land first, then `updatedAt` is overridden by the server
timestamp. -/
def applyCardUpdate (now : Nat) (u : CardUpdate) (c : Card) : Card :=
  { c with
    title := u.title.getD c.title,
    body := u.body.getD c.body,
    updatedAt := now }

/-- `updateCard` (lines 92-131): guards, then `updateDoc` on the card, then
`updateDoc` on the deck timestamp (two separate awaited writes). -/
def updateCard (user : Option String) (deckId : String) (now : Nat) (pOk : Bool)
    (cardId : String) (updates : CardUpdate) (st : Store) (ui : UiState) :
    Outcome Unit :=
  match user with
  | none => ⟨.error .Unauthenticated, st, ui, []⟩
  | some _ =>
    if cardId.trim = "" then ⟨.error (.InvalidArgument "Card ID is required"), st, ui, []⟩
    else if pOk then
      match updateCardDoc cardId (applyCardUpdate now updates) st with
      | none =>
        ⟨.error (.PersistenceError "Failed to update card"), st,
          ⟨false, some "Failed to update card"⟩,
          [.setLoading true, .setErr none, .storage,
            .setErr (some "Failed to update card"), .setLoading false]⟩
      | some st1 =>
        match updateDeckDoc deckId (fun d => { d with updatedAt := now }) st1 with
        | some st2 =>
          ⟨.ok (), st2, ⟨false, none⟩,
            [.setLoading true, .setErr none, .storage, .storage,
              .setLoading false, .setErr none]⟩
        | none =>
          ⟨.error (.PersistenceError "Failed to update card"), st1,
            ⟨false, some "Failed to update card"⟩,
            [.setLoading true, .setErr none, .storage, .storage,
              .setErr (some "Failed to update card"), .setLoading false]⟩
    else
      ⟨.error (.PersistenceError "Failed to update card"), st,
        ⟨false, some "Failed to update card"⟩,
        [.setLoading true, .setErr none, .storage,
          .setErr (some "Failed to update card"), .setLoading false]⟩

/-- `deleteCard` (lines 133-171): guards, then `deleteDoc` (succeeds even
when the card is absent), a `getDocs` recount of the deck's cards, and an
`updateDoc` of the deck's `cardCount` and timestamp. -/
def deleteCard (user : Option String) (deckId : String) (now : Nat) (pOk : Bool)
    (cardId : String) (st : Store) (ui : UiState) : Outcome Unit :=
  match user with
  | none => ⟨.error .Unauthenticated, st, ui, []⟩
  | some _ =>
    if cardId.trim = "" then ⟨.error (.InvalidArgument "Card ID is required"), st, ui, []⟩
    else if pOk then
      let st1 : Store := { st with cards := st.cards.filter (fun c => c.id != cardId) }
      let remaining := st1.cards.filter (fun c => c.deckId == deckId)
      match updateDeckDoc deckId
          (fun d => { d with cardCount := remaining.length, updatedAt := now }) st1 with
      | some st2 =>
        ⟨.ok (), st2, ⟨false, none⟩,
          [.setLoading true, .setErr none, .storage, .storage, .storage,
            .setLoading false, .setErr none]⟩
      | none =>
        ⟨.error (.PersistenceError "Failed to delete card"), st1,
          ⟨false, some "Failed to delete card"⟩,
          [.setLoading true, .setErr none, .storage, .storage, .storage,
            .setErr (some "Failed to delete card"), .setLoading false]⟩
    else
      ⟨.error (.PersistenceError "Failed to delete card"), st,
        ⟨false, some "Failed to delete card"⟩,
        [.setLoading true, .setErr none, .storage,
          .setErr (some "Failed to delete card"), .setLoading false]⟩

/-- `true` when every recorded storage round trip happens while the busy
flag is asserted, starting from flag value `b`. -/
def storageWhileBusy (b : Bool) : List Event → Bool
  | [] => true
  | .setLoading b₁ :: es => storageWhileBusy b₁ es
  | .setErr _ :: es => storageWhileBusy b es
  | .storage :: es => b && storageWhileBusy b es

/-! ### Helper lemmas -/

theorem find?_cons_pos {α : Type} (p : α → Bool) (a : α) (l : List α) (h : p a = true) :
    (a :: l).find? p = some a := by
  simp [List.find?, h]

theorem find?_cons_neg {α : Type} (p : α → Bool) (a : α) (l : List α) (h : p a = false) :
    (a :: l).find? p = l.find? p := by
  simp [List.find?, h]

theorem find?_ite_update {α : Type} (l : List α) (idf : α → String) (x y : String)
    (f : α → α) (hf : ∀ a, idf (f a) = idf a) :
    (l.map (fun a => if idf a == x then f a else a)).find? (fun a => idf a == y) =
      (l.find? (fun a => idf a == y)).map (fun a => if idf a == x then f a else a) := by
  induction l with
  | nil => rfl
  | cons a t ih =>
    simp only [List.map_cons]
    by_cases h : (idf a == x) = true
    · rw [if_pos h]
      by_cases h2 : (idf a == y) = true
      · have hfy : ((fun a => idf a == y) (f a)) = true := by
          show (idf (f a) == y) = true
          rw [hf]; exact h2
        rw [find?_cons_pos (fun a => idf a == y) (f a) (t.map _) hfy,
          find?_cons_pos (fun a => idf a == y) a t h2, Option.map_some', if_pos h]
      · have h2f : (idf a == y) = false := by simpa using h2
        have hfy : ((fun a => idf a == y) (f a)) = false := by
          show (idf (f a) == y) = false
          rw [hf]; exact h2f
        rw [find?_cons_neg (fun a => idf a == y) (f a) (t.map _) hfy,
          find?_cons_neg (fun a => idf a == y) a t h2f, ih]
    · rw [if_neg h]
      by_cases h2 : (idf a == y) = true
      · rw [find?_cons_pos (fun a => idf a == y) a (t.map _) h2,
          find?_cons_pos (fun a => idf a == y) a t h2, Option.map_some', if_neg h]
      · have h2f : (idf a == y) = false := by simpa using h2
        rw [find?_cons_neg (fun a => idf a == y) a (t.map _) h2f,
          find?_cons_neg (fun a => idf a == y) a t h2f, ih]

theorem find?_ite_update_self {α : Type} (l : List α) (idf : α → String) (x : String)
    (f : α → α) (hf : ∀ a, idf (f a) = idf a) :
    (l.map (fun a => if idf a == x then f a else a)).find? (fun a => idf a == x) =
      (l.find? (fun a => idf a == x)).map f := by
  rw [find?_ite_update l idf x x f hf]
  cases hfind : l.find? (fun a => idf a == x) with
  | none => rfl
  | some a =>
    have h := List.find?_some hfind
    rw [Option.map_some', Option.map_some', if_pos h]

theorem find?_ite_update_ne {α : Type} (l : List α) (idf : α → String) (x y : String)
    (f : α → α) (hf : ∀ a, idf (f a) = idf a) (hxy : y ≠ x) :
    (l.map (fun a => if idf a == x then f a else a)).find? (fun a => idf a == y) =
      l.find? (fun a => idf a == y) := by
  rw [find?_ite_update l idf x y f hf]
  cases hfind : l.find? (fun a => idf a == y) with
  | none => rfl
  | some a =>
    have h := List.find?_some hfind
    have hy : idf a = y := by simpa using h
    have h3 : ¬ ((idf a == x) = true) := by simp [hy, hxy]
    rw [Option.map_some', if_neg h3]

theorem applyCardOrder_not_mem (now : Nat) {ids : List String} {cid : String}
    (h : cid ∉ ids) :
    ∀ (s : Int) (cs : List Card),
      (applyCardOrder now ids s cs).find? (fun c => c.id == cid) =
        cs.find? (fun c => c.id == cid) := by
  induction ids with
  | nil => intro s cs; rfl
  | cons cid₀ rest ih =>
    intro s cs
    have h1 : cid ≠ cid₀ := fun hh => h (hh ▸ List.mem_cons_self _ _)
    have h2 : cid ∉ rest := fun hh => h (List.mem_cons_of_mem _ hh)
    show (applyCardOrder now rest (s + 1) _).find? _ = _
    rw [ih h2]
    exact find?_ite_update_ne cs Card.id cid₀ cid
      (fun c => { c with orderIndex := s, updatedAt := now }) (fun c => rfl) h1

theorem applyCardOrder_getElem (now : Nat) :
    ∀ {ids : List String}, ids.Nodup →
    ∀ (s : Int) (cs : List Card) (k : Nat) (cid : String), ids[k]? = some cid →
      (applyCardOrder now ids s cs).find? (fun c => c.id == cid) =
        (cs.find? (fun c => c.id == cid)).map
          (fun c => { c with orderIndex := s + (k : Int), updatedAt := now }) := by
  intro ids
  induction ids with
  | nil => intro _ s cs k cid hk; simp at hk
  | cons cid₀ rest ih =>
    intro hnd s cs k cid hk
    have hnm : cid₀ ∉ rest := (List.nodup_cons.mp hnd).1
    have hndr : rest.Nodup := (List.nodup_cons.mp hnd).2
    cases k with
    | zero =>
      have hc : cid₀ = cid := by simpa using hk
      subst hc
      show (applyCardOrder now rest (s + 1) _).find? _ = _
      rw [applyCardOrder_not_mem now hnm,
        find?_ite_update_self cs Card.id cid₀
          (fun c => { c with orderIndex := s, updatedAt := now }) (fun c => rfl)]
      have hz : s + ((0 : Nat) : Int) = s := by simp
      rw [hz]
    | succ k =>
      have hk2 : rest[k]? = some cid := by simpa using hk
      have hmem : cid ∈ rest := List.getElem?_mem hk2
      have h1 : cid ≠ cid₀ := fun hh => hnm (hh ▸ hmem)
      show (applyCardOrder now rest (s + 1) _).find? _ = _
      rw [ih hndr (s + 1) _ k cid hk2,
        find?_ite_update cs Card.id cid₀ cid
          (fun c => { c with orderIndex := s, updatedAt := now }) (fun c => rfl)]
      cases hfind : cs.find? (fun c => c.id == cid) with
      | none => rfl
      | some c =>
        have hcid : c.id = cid := by simpa using List.find?_some hfind
        have hne : ¬ ((c.id == cid₀) = true) := by simp [hcid, h1]
        rw [Option.map_some', Option.map_some', if_neg hne]
        have harith : s + 1 + (k : Int) = s + ((k + 1 : Nat) : Int) := by push_cast; ring
        rw [harith, Option.map_some']

theorem findIndex_some_lt {p : Card → Bool} {l : List Card} {i : Nat}
    (h : findIndex p l = some i) : i < l.length := by
  induction l generalizing i with
  | nil => simp [findIndex] at h
  | cons c cs ih =>
    rw [findIndex] at h
    by_cases hp : p c = true
    · rw [if_pos hp] at h
      cases h
      simp
    · rw [if_neg hp] at h
      cases hfi : findIndex p cs with
      | none => rw [hfi] at h; simp at h
      | some j =>
        rw [hfi] at h
        cases h
        have := ih hfi
        show j + 1 < (c :: cs).length
        simp
        omega

theorem findIndex_some_getD {p : Card → Bool} {l : List Card} {i : Nat}
    (h : findIndex p l = some i) : p (l.getD i default) = true := by
  induction l generalizing i with
  | nil => simp [findIndex] at h
  | cons c cs ih =>
    rw [findIndex] at h
    by_cases hp : p c = true
    · rw [if_pos hp] at h
      cases h
      exact hp
    · rw [if_neg hp] at h
      cases hfi : findIndex p cs with
      | none => rw [hfi] at h; simp at h
      | some j =>
        rw [hfi] at h
        cases h
        exact ih hfi

theorem findIndex_some_min {p : Card → Bool} {l : List Card} {i : Nat}
    (h : findIndex p l = some i) :
    ∀ j, j < i → p (l.getD j default) = false := by
  induction l generalizing i with
  | nil => simp [findIndex] at h
  | cons c cs ih =>
    rw [findIndex] at h
    by_cases hp : p c = true
    · rw [if_pos hp] at h
      cases h
      intro j hj
      omega
    · rw [if_neg hp] at h
      cases hfi : findIndex p cs with
      | none => rw [hfi] at h; simp at h
      | some j₀ =>
        rw [hfi] at h
        cases h
        intro j hj
        have hj2 : j < j₀ + 1 := hj
        cases j with
        | zero => simpa using hp
        | succ j => exact ih hfi j (by omega)

theorem findIndex_eq_some_of {p : Card → Bool} {l : List Card} {i : Nat}
    (hi : i < l.length) (hp : p (l.getD i default) = true)
    (hmin : ∀ j, j < i → p (l.getD j default) = false) :
    findIndex p l = some i := by
  induction l generalizing i with
  | nil => simp at hi
  | cons c cs ih =>
    cases i with
    | zero =>
      have hp0 : p c = true := by simpa using hp
      rw [findIndex, if_pos hp0]
    | succ i =>
      have h0 : p c = false := by simpa using hmin 0 (by omega)
      have hi2 : i < cs.length := by simpa using hi
      have hp2 : p (cs.getD i default) = true := by simpa using hp
      have hmin2 : ∀ j, j < i → p (cs.getD j default) = false := by
        intro j hj
        simpa using hmin (j + 1) (by omega)
      rw [findIndex, if_neg (by simp [h0]), ih hi2 hp2 hmin2]
      rfl

theorem findIndex_eq_none_of {p : Card → Bool} {l : List Card}
    (h : ∀ c ∈ l, p c = false) : findIndex p l = none := by
  induction l with
  | nil => rfl
  | cons c cs ih =>
    rw [findIndex, if_neg (by simp [h c (List.mem_cons_self _ _)]),
      ih (fun x hx => h x (List.mem_cons_of_mem _ hx))]
    rfl

/-- A successful `reorderCards` call implies: the batch commit conditions
held, and the resulting store is the batch applied to the old one. -/
theorem reorderCards_ok_inv {u deckId : String} {now : Nat} {pOk : Bool}
    {cardIds : List String} {st : Store} {ui : UiState}
    (hok : (reorderCards (some u) deckId now pOk cardIds st ui).res = .ok ()) :
    cardIds.isEmpty = false ∧ reorderBatchOk deckId cardIds st = true ∧ pOk = true ∧
      (reorderCards (some u) deckId now pOk cardIds st ui).store =
        applyReorderBatch deckId now cardIds st := by
  rw [reorderCards] at hok ⊢
  by_cases h1 : cardIds.isEmpty
  · rw [if_pos h1] at hok
    simp at hok
  · rw [if_neg h1] at hok ⊢
    by_cases h2 : (reorderBatchOk deckId cardIds st && pOk) = true
    · rw [if_pos h2] at hok ⊢
      refine ⟨by simpa using h1, ?_, ?_, rfl⟩
      · exact (Bool.and_eq_true_iff.mp h2).1
      · exact (Bool.and_eq_true_iff.mp h2).2
    · rw [if_neg h2] at hok
      simp at hok

/-- For a successful `reorderCards` call over duplicate-free ids, the card
named at position `k` exists and ends with `orderIndex = k` and a fresh
timestamp. -/
theorem reorder_card_at
    {u deckId : String} {now : Nat} {pOk : Bool} {cardIds : List String}
    {st : Store} {ui : UiState}
    (hnd : cardIds.Nodup)
    (hok : (reorderCards (some u) deckId now pOk cardIds st ui).res = .ok ())
    {k : Nat} {cid : String} (hk : cardIds[k]? = some cid) :
    ∃ c, st.cards.find? (fun x => x.id == cid) = some c ∧
      (reorderCards (some u) deckId now pOk cardIds st ui).store.cards.find?
          (fun x => x.id == cid) =
        some { c with orderIndex := (k : Int), updatedAt := now } := by
  obtain ⟨hne, hbatch, hpOk, hst⟩ := reorderCards_ok_inv hok
  have hmem : cid ∈ cardIds := List.getElem?_mem hk
  rw [reorderBatchOk] at hbatch
  have hall := (Bool.and_eq_true_iff.mp hbatch).1
  have hany : st.cards.any (fun c => c.id == cid) = true :=
    List.all_eq_true.mp hall cid hmem
  have hex : ∃ c, c ∈ st.cards ∧ (c.id == cid) = true := List.any_eq_true.mp hany
  have hsome : (st.cards.find? (fun x => x.id == cid)).isSome :=
    List.find?_isSome.mpr hex
  obtain ⟨c, hc⟩ := Option.isSome_iff_exists.mp hsome
  refine ⟨c, hc, ?_⟩
  rw [hst]
  show (applyCardOrder now cardIds 0 st.cards).find? _ = _
  rw [applyCardOrder_getElem now hnd 0 st.cards k cid hk, hc, Option.map_some']
  have hz : (0 : Int) + (k : Int) = (k : Int) := by ring
  rw [hz]

/-- For a successful `reorderCards` call, the owning deck's stored document
ends with `updatedAt = now`. -/
theorem reorder_deck_at
    {u deckId : String} {now : Nat} {pOk : Bool} {cardIds : List String}
    {st : Store} {ui : UiState}
    (hok : (reorderCards (some u) deckId now pOk cardIds st ui).res = .ok ())
    {d : Deck} (hd : st.decks.find? (fun x => x.id == deckId) = some d) :
    (reorderCards (some u) deckId now pOk cardIds st ui).store.decks.find?
        (fun x => x.id == deckId) = some { d with updatedAt := now } := by
  obtain ⟨hne, hbatch, hpOk, hst⟩ := reorderCards_ok_inv hok
  rw [hst]
  show ((st.decks.map _).find? _) = _
  rw [find?_ite_update_self st.decks Deck.id deckId
    (fun d => { d with updatedAt := now }) (fun d => rfl), hd, Option.map_some']

/-- C2 (amended): for every authenticated `reorderCards(cardIds)` call over
a duplicate-free non-empty id list that completes successfully, the card at
0-based position `k` of `cardIds` ends with `orderIndex = k` and its
modified timestamp refreshed to the commit time, and the owning deck's
modified timestamp is refreshed to the commit time (strictly greater than
before whenever the commit time exceeds the old stamp). -/
theorem reorderCards_success_effects
    (u deckId : String) (now : Nat) (pOk : Bool) (cardIds : List String)
    (st : Store) (ui : UiState)
    (hnd : cardIds.Nodup)
    (hok : (reorderCards (some u) deckId now pOk cardIds st ui).res = .ok ()) :
    (∀ (k : Nat) (cid : String), cardIds[k]? = some cid →
      ∃ c, st.cards.find? (fun x => x.id == cid) = some c ∧
        (reorderCards (some u) deckId now pOk cardIds st ui).store.cards.find?
            (fun x => x.id == cid) =
          some { c with orderIndex := (k : Int), updatedAt := now }) ∧
    (∀ d, st.decks.find? (fun x => x.id == deckId) = some d →
      ∃ d₂, (reorderCards (some u) deckId now pOk cardIds st ui).store.decks.find?
            (fun x => x.id == deckId) = some d₂ ∧
        d₂.updatedAt = now ∧ (d.updatedAt < now → d.updatedAt < d₂.updatedAt)) := by
  constructor
  · intro k cid hk
    exact reorder_card_at hnd hok hk
  · intro d hd
    exact ⟨{ d with updatedAt := now }, reorder_deck_at hok hd, rfl, fun h => h⟩

/-- C2 witness. -/
theorem reorderCards_success_effects_witness :
    (∀ (k : Nat) (cid : String), (["b", "a"] : List String)[k]? = some cid →
      ∃ c, (⟨[⟨"a", "d", "ta", "ba", 0, 0, 0⟩, ⟨"b", "d", "tb", "bb", 1, 0, 0⟩],
              [⟨"d", "t", "o", 2, 0, 0⟩]⟩ : Store).cards.find?
            (fun x => x.id == cid) = some c ∧
        (reorderCards (some "u") "d" 7 true ["b", "a"]
            ⟨[⟨"a", "d", "ta", "ba", 0, 0, 0⟩, ⟨"b", "d", "tb", "bb", 1, 0, 0⟩],
              [⟨"d", "t", "o", 2, 0, 0⟩]⟩ ⟨false, none⟩).store.cards.find?
            (fun x => x.id == cid) =
          some { c with orderIndex := (k : Int), updatedAt := 7 }) ∧
    (∀ d, (⟨[⟨"a", "d", "ta", "ba", 0, 0, 0⟩, ⟨"b", "d", "tb", "bb", 1, 0, 0⟩],
              [⟨"d", "t", "o", 2, 0, 0⟩]⟩ : Store).decks.find?
          (fun x => x.id == "d") = some d →
      ∃ d₂, (reorderCards (some "u") "d" 7 true ["b", "a"]
            ⟨[⟨"a", "d", "ta", "ba", 0, 0, 0⟩, ⟨"b", "d", "tb", "bb", 1, 0, 0⟩],
              [⟨"d", "t", "o", 2, 0, 0⟩]⟩ ⟨false, none⟩).store.decks.find?
            (fun x => x.id == "d") = some d₂ ∧
        d₂.updatedAt = 7 ∧ (d.updatedAt < 7 → d.updatedAt < d₂.updatedAt)) :=
  reorderCards_success_effects "u" "d" 7 true ["b", "a"]
    ⟨[⟨"a", "d", "ta", "ba", 0, 0, 0⟩, ⟨"b", "d", "tb", "bb", 1, 0, 0⟩],
      [⟨"d", "t", "o", 2, 0, 0⟩]⟩ ⟨false, none⟩ (by decide) (by decide)

/-- C2 counterexample: a duplicated id list makes the claim as stated fail —
the call succeeds, "a" sits at position 0 of the supplied list, yet its
final `orderIndex` is 1, not 0 (the later batch update wins). -/
theorem reorderCards_duplicate_cex :
    (reorderCards (some "u") "d" 5 true ["a", "a"]
        ⟨[⟨"a", "d", "t", "b", 0, 0, 0⟩], [⟨"d", "t", "o", 1, 0, 0⟩]⟩
        ⟨false, none⟩).res = .ok () ∧
    ["a", "a"][0]? = some "a" ∧
    (reorderCards (some "u") "d" 5 true ["a", "a"]
        ⟨[⟨"a", "d", "t", "b", 0, 0, 0⟩], [⟨"d", "t", "o", 1, 0, 0⟩]⟩
        ⟨false, none⟩).store.cards.find? (fun c => c.id == "a") =
      some ⟨"a", "d", "t", "b", 1, 0, 5⟩ := by
  refine ⟨rfl, rfl, rfl⟩

/-- C7: after a successful reorder commit over a duplicate-free list of n
card ids, looking the supplied ids up in order yields `orderIndex` values
exactly 0, 1, ..., n-1 — no duplicate index and no gap. -/
theorem reorderCards_orderIndex_range
    (u deckId : String) (now : Nat) (pOk : Bool) (cardIds : List String)
    (st : Store) (ui : UiState)
    (hnd : cardIds.Nodup)
    (hok : (reorderCards (some u) deckId now pOk cardIds st ui).res = .ok ()) :
    cardIds.map (fun cid =>
        ((reorderCards (some u) deckId now pOk cardIds st ui).store.cards.find?
            (fun x => x.id == cid)).map Card.orderIndex) =
      (List.range cardIds.length).map (fun (k : Nat) => some ((k : Int))) := by
  apply List.ext_getElem?
  intro n
  rw [List.getElem?_map, List.getElem?_map]
  cases hn : cardIds[n]? with
  | none =>
    have hlen : cardIds.length ≤ n := List.getElem?_eq_none_iff.mp hn
    rw [List.getElem?_eq_none (by simpa using hlen)]
    rfl
  | some cid =>
    obtain ⟨c, hc, hc2⟩ := reorder_card_at hnd hok hn
    have hlt : n < cardIds.length := by
      by_contra hge
      rw [List.getElem?_eq_none (by omega)] at hn
      simp at hn
    rw [Option.map_some', hc2, List.getElem?_range hlt, Option.map_some',
      Option.map_some']

/-- C7 witness. -/
theorem reorderCards_orderIndex_range_witness :
    (["b", "a"] : List String).map (fun cid =>
        ((reorderCards (some "u") "d" 7 true ["b", "a"]
            ⟨[⟨"a", "d", "ta", "ba", 0, 0, 0⟩, ⟨"b", "d", "tb", "bb", 1, 0, 0⟩],
              [⟨"d", "t", "o", 2, 0, 0⟩]⟩ ⟨false, none⟩).store.cards.find?
            (fun x => x.id == cid)).map Card.orderIndex) =
      (List.range (["b", "a"] : List String).length).map
        (fun (k : Nat) => some ((k : Int))) :=
  reorderCards_orderIndex_range "u" "d" 7 true ["b", "a"]
    ⟨[⟨"a", "d", "ta", "ba", 0, 0, 0⟩, ⟨"b", "d", "tb", "bb", 1, 0, 0⟩],
      [⟨"d", "t", "o", 2, 0, 0⟩]⟩ ⟨false, none⟩ (by decide) (by decide)

/-- C5 (amended): `reorderCards` fails with `Unauthenticated` and performs
no write whenever there is no current user; when a user is present and the
id list is empty it fails with `InvalidArgument` and performs no write (an
unauthenticated call with an empty list reports `Unauthenticated`, the auth
guard running first). -/
theorem reorderCards_guards
    (user : Option String) (deckId : String) (now : Nat) (pOk : Bool)
    (cardIds : List String) (st : Store) (ui : UiState) :
    (user = none →
      (reorderCards user deckId now pOk cardIds st ui).res = .error .Unauthenticated ∧
      (reorderCards user deckId now pOk cardIds st ui).store = st ∧
      (reorderCards user deckId now pOk cardIds st ui).trace = []) ∧
    (∀ u, user = some u → cardIds = [] →
      (reorderCards user deckId now pOk cardIds st ui).res =
        .error (.InvalidArgument "Card IDs are required") ∧
      (reorderCards user deckId now pOk cardIds st ui).store = st ∧
      (reorderCards user deckId now pOk cardIds st ui).trace = []) := by
  constructor
  · intro h
    subst h
    exact ⟨rfl, rfl, rfl⟩
  · intro u hu he
    subst hu
    subst he
    exact ⟨rfl, rfl, rfl⟩

/-- C5 witness. -/
theorem reorderCards_guards_witness :
    ((none : Option String) = none →
      (reorderCards none "d" 0 true ["a"] ⟨[], []⟩ ⟨false, none⟩).res =
        .error .Unauthenticated ∧
      (reorderCards none "d" 0 true ["a"] ⟨[], []⟩ ⟨false, none⟩).store = ⟨[], []⟩ ∧
      (reorderCards none "d" 0 true ["a"] ⟨[], []⟩ ⟨false, none⟩).trace = []) ∧
    (∀ u, (none : Option String) = some u → ["a"] = [] →
      (reorderCards none "d" 0 true ["a"] ⟨[], []⟩ ⟨false, none⟩).res =
        .error (.InvalidArgument "Card IDs are required") ∧
      (reorderCards none "d" 0 true ["a"] ⟨[], []⟩ ⟨false, none⟩).store = ⟨[], []⟩ ∧
      (reorderCards none "d" 0 true ["a"] ⟨[], []⟩ ⟨false, none⟩).trace = []) :=
  reorderCards_guards none "d" 0 true ["a"] ⟨[], []⟩ ⟨false, none⟩

/-- C5 counterexample: with no user and an empty list the call fails with
`Unauthenticated`, not `InvalidArgument` — the claim's "fails with
InvalidArgument whenever the list is empty" does not hold as stated. -/
theorem reorderCards_empty_unauthenticated_cex :
    (reorderCards none "d" 0 true [] ⟨[], []⟩ ⟨false, none⟩).res =
      .error .Unauthenticated ∧
    ¬ ∃ m, (reorderCards none "d" 0 true [] ⟨[], []⟩ ⟨false, none⟩).res =
      .error (.InvalidArgument m) := by
  refine ⟨rfl, ?_⟩
  rintro ⟨m, hm⟩
  simp [reorderCards] at hm

theorem getElem?_eq_some_getD {α : Type} [Inhabited α] {l : List α} {n : Nat}
    (h : n < l.length) : l[n]? = some (l.getD n default) := by
  rw [List.getD_eq_getElem?_getD, List.getElem?_eq_getElem h]
  rfl

theorem nodup_id_ne {cards : List Card} (hnd : (cards.map Card.id).Nodup)
    {i j : Nat} (hi : i < cards.length) (hj : j < cards.length) (hij : i ≠ j) :
    (cards.getD i default).id ≠ (cards.getD j default).id := by
  have hgi : (cards.map Card.id)[i]? = some (cards.getD i default).id := by
    rw [List.getElem?_map, getElem?_eq_some_getD hi, Option.map_some']
  have hgj : (cards.map Card.id)[j]? = some (cards.getD j default).id := by
    rw [List.getElem?_map, getElem?_eq_some_getD hj, Option.map_some']
  intro heq
  rcases Nat.lt_or_ge i j with hlt | hge
  · have hne := (List.nodup_iff_getElem?_ne_getElem?.mp hnd) i j hlt (by simpa using hj)
    rw [hgi, hgj, heq] at hne
    exact hne rfl
  · have hlt2 : j < i := by omega
    have hne := (List.nodup_iff_getElem?_ne_getElem?.mp hnd) j i hlt2 (by simpa using hi)
    rw [hgi, hgj, heq] at hne
    exact hne rfl

theorem findIndex_at_pos {cards : List Card} {cardId : String} {i : Nat}
    (hnd : (cards.map Card.id).Nodup)
    (hi : i < cards.length) (hc : (cards.getD i default).id = cardId) :
    findIndex (fun c => c.id == cardId) cards = some i := by
  apply findIndex_eq_some_of hi
  · simpa using hc
  · intro j hj
    have hjlt : j < cards.length := by omega
    have hne : (cards.getD j default).id ≠ (cards.getD i default).id :=
      nodup_id_ne hnd hjlt hi (by omega)
    rw [hc] at hne
    simpa using hne

theorem set_swap_perm {α : Type} [Inhabited α] :
    ∀ (l : List α) (j : Nat), j + 1 < l.length →
      ((l.set j (l.getD (j + 1) default)).set (j + 1) (l.getD j default)).Perm l
  | [], j, h => by simp at h
  | [a], j, h => by simp at h
  | a :: b :: t, 0, h => List.Perm.swap' a b (List.Perm.refl t)
  | a :: b :: t, j + 1, h =>
    List.Perm.cons a (set_swap_perm (b :: t) j (by simpa using h))

theorem computeMoveUp_error_shape {cardId : String} {cards : List Card} {e : Err}
    (h : computeMoveUp cardId cards = .error e) :
    e = .InvalidMove "Card cannot be moved up" := by
  unfold computeMoveUp at h
  split at h
  · cases h; rfl
  · split at h
    · cases h; rfl
    · cases h

theorem computeMoveDown_error_shape {cardId : String} {cards : List Card} {e : Err}
    (h : computeMoveDown cardId cards = .error e) :
    e = .InvalidMove "Card cannot be moved down" := by
  unfold computeMoveDown at h
  split at h
  · cases h; rfl
  · split at h
    · cases h; rfl
    · cases h

theorem moveCardUp_of_compute_error {u deckId : String} {now : Nat} {pOk : Bool}
    {cardId : String} {cards : List Card} {st : Store} {ui : UiState} {e : Err}
    (hcomp : computeMoveUp cardId cards = .error e) :
    moveCardUp (some u) deckId now pOk cardId cards st ui = ⟨.error e, st, ui, []⟩ := by
  unfold moveCardUp
  rw [hcomp]

theorem moveCardDown_of_compute_error {u deckId : String} {now : Nat} {pOk : Bool}
    {cardId : String} {cards : List Card} {st : Store} {ui : UiState} {e : Err}
    (hcomp : computeMoveDown cardId cards = .error e) :
    moveCardDown (some u) deckId now pOk cardId cards st ui = ⟨.error e, st, ui, []⟩ := by
  unfold moveCardDown
  rw [hcomp]

theorem moveCardUp_of_compute_ok {u deckId : String} {now : Nat} {pOk : Bool}
    {cardId : String} {cards : List Card} {st : Store} {ui : UiState}
    {ids : List String} (hcomp : computeMoveUp cardId cards = .ok ids) :
    (moveCardUp (some u) deckId now pOk cardId cards st ui).res =
      (reorderCards (some u) deckId now pOk ids st ⟨true, none⟩).res ∧
    (moveCardUp (some u) deckId now pOk cardId cards st ui).store =
      (reorderCards (some u) deckId now pOk ids st ⟨true, none⟩).store := by
  unfold moveCardUp
  rw [hcomp]
  cases hres : (reorderCards (some u) deckId now pOk ids st ⟨true, none⟩).res with
  | ok a => simp [hres]
  | error e => simp [hres]

theorem moveCardDown_of_compute_ok {u deckId : String} {now : Nat} {pOk : Bool}
    {cardId : String} {cards : List Card} {st : Store} {ui : UiState}
    {ids : List String} (hcomp : computeMoveDown cardId cards = .ok ids) :
    (moveCardDown (some u) deckId now pOk cardId cards st ui).res =
      (reorderCards (some u) deckId now pOk ids st ⟨true, none⟩).res ∧
    (moveCardDown (some u) deckId now pOk cardId cards st ui).store =
      (reorderCards (some u) deckId now pOk ids st ⟨true, none⟩).store := by
  unfold moveCardDown
  rw [hcomp]
  cases hres : (reorderCards (some u) deckId now pOk ids st ⟨true, none⟩).res with
  | ok a => simp [hres]
  | error e => simp [hres]

theorem swapWithPrev_getElem? {cards : List Card} {i : Nat}
    (hi : i < cards.length) (h1 : 1 ≤ i) :
    (swapWithPrev cards i).length = cards.length ∧
    (swapWithPrev cards i)[i - 1]? = cards[i]? ∧
    (swapWithPrev cards i)[i]? = cards[i - 1]? ∧
    ∀ j, j ≠ i - 1 → j ≠ i → (swapWithPrev cards i)[j]? = cards[j]? := by
  refine ⟨by simp [swapWithPrev], ?_, ?_, ?_⟩
  · rw [swapWithPrev, List.getElem?_set_ne (by omega),
      List.getElem?_set_self (by omega), getElem?_eq_some_getD hi]
  · rw [swapWithPrev, List.getElem?_set_self (by simpa using hi),
      getElem?_eq_some_getD (by omega : i - 1 < cards.length)]
  · intro j hj1 hj2
    rw [swapWithPrev, List.getElem?_set_ne (fun hh => hj2 hh.symm),
      List.getElem?_set_ne (fun hh => hj1 hh.symm)]

theorem swapWithNext_getElem? {cards : List Card} {i : Nat}
    (hi : i + 1 < cards.length) :
    (swapWithNext cards i).length = cards.length ∧
    (swapWithNext cards i)[i]? = cards[i + 1]? ∧
    (swapWithNext cards i)[i + 1]? = cards[i]? ∧
    ∀ j, j ≠ i → j ≠ i + 1 → (swapWithNext cards i)[j]? = cards[j]? := by
  refine ⟨by simp [swapWithNext], ?_, ?_, ?_⟩
  · rw [swapWithNext, List.getElem?_set_self (by simpa using (by omega : i < cards.length)),
      getElem?_eq_some_getD hi]
  · rw [swapWithNext, List.getElem?_set_ne (by omega),
      List.getElem?_set_self (by omega),
      getElem?_eq_some_getD (by omega : i < cards.length)]
  · intro j hj1 hj2
    rw [swapWithNext, List.getElem?_set_ne (fun hh => hj1 hh.symm),
      List.getElem?_set_ne (fun hh => hj2 hh.symm)]

theorem swapWithPrev_perm {cards : List Card} {i : Nat}
    (hi : i < cards.length) (h1 : 1 ≤ i) :
    (swapWithPrev cards i).Perm cards := by
  have hj : (i - 1) + 1 < cards.length := by omega
  have hperm := set_swap_perm cards (i - 1) hj
  have hrw : i - 1 + 1 = i := by omega
  rw [hrw] at hperm
  exact hperm

theorem swapWithNext_perm {cards : List Card} {i : Nat}
    (hi : i + 1 < cards.length) :
    (swapWithNext cards i).Perm cards := by
  have hcomm := List.set_comm (cards.getD i default) (cards.getD (i + 1) default)
    cards (by omega : i + 1 ≠ i)
  rw [swapWithNext, hcomm]
  exact set_swap_perm cards i hi

theorem computeMoveUp_swap {cardId : String} {cards : List Card} {i : Nat}
    (hnd : (cards.map Card.id).Nodup)
    (hi : i < cards.length) (h1 : 1 ≤ i) (hc : (cards.getD i default).id = cardId) :
    computeMoveUp cardId cards = .ok ((swapWithPrev cards i).map Card.id) := by
  have hfi := findIndex_at_pos hnd hi hc
  unfold computeMoveUp
  rw [hfi]
  exact if_neg (by omega)

theorem computeMoveDown_swap {cardId : String} {cards : List Card} {i : Nat}
    (hnd : (cards.map Card.id).Nodup)
    (hi : i + 1 < cards.length) (hc : (cards.getD i default).id = cardId) :
    computeMoveDown cardId cards = .ok ((swapWithNext cards i).map Card.id) := by
  have hfi := findIndex_at_pos hnd (by omega) hc
  unfold computeMoveDown
  rw [hfi]
  exact if_neg (by omega)

theorem findIndex_none_of_not_mem {cardId : String} {cards : List Card}
    (hnm : cardId ∉ cards.map Card.id) :
    findIndex (fun c => c.id == cardId) cards = none := by
  apply findIndex_eq_none_of
  intro c hcmem
  have hmm : c.id ∈ cards.map Card.id := List.mem_map_of_mem _ hcmem
  by_cases he : c.id = cardId
  · exact absurd (he ▸ hmm) hnm
  · simp [he]

/-- C3: for a list of n ≥ 2 distinct cards with the target at position i
(1 ≤ i ≤ n-1), move-up returns the identifier sequence identical to the
input except that positions i-1 and i are swapped — a permutation of the
input ids of the same length; for a target at position 0 or an absent
identifier, the computation fails with `InvalidMove` and `moveCardUp`
performs no write (the store is unchanged). -/
theorem moveCardUp_correct
    (u deckId : String) (now : Nat) (pOk : Bool) (cardId : String)
    (cards : List Card) (st : Store) (ui : UiState)
    (hnd : (cards.map Card.id).Nodup) :
    (∀ i, i < cards.length → 1 ≤ i → (cards.getD i default).id = cardId →
      ∃ ids, computeMoveUp cardId cards = .ok ids ∧
        ids.length = cards.length ∧
        ids[i - 1]? = (cards.map Card.id)[i]? ∧
        ids[i]? = (cards.map Card.id)[i - 1]? ∧
        (∀ j, j ≠ i - 1 → j ≠ i → ids[j]? = (cards.map Card.id)[j]?) ∧
        ids.Perm (cards.map Card.id)) ∧
    ((0 < cards.length ∧ (cards.getD 0 default).id = cardId) ∨
        cardId ∉ cards.map Card.id →
      computeMoveUp cardId cards = .error (.InvalidMove "Card cannot be moved up") ∧
      (moveCardUp (some u) deckId now pOk cardId cards st ui).store = st ∧
      (moveCardUp (some u) deckId now pOk cardId cards st ui).res =
        .error (.InvalidMove "Card cannot be moved up")) := by
  constructor
  · intro i hi h1 hc
    obtain ⟨hl, ha, hb, ho⟩ := swapWithPrev_getElem? hi h1
    refine ⟨(swapWithPrev cards i).map Card.id, computeMoveUp_swap hnd hi h1 hc,
      by simp [hl], ?_, ?_, ?_, List.Perm.map Card.id (swapWithPrev_perm hi h1)⟩
    · rw [List.getElem?_map, List.getElem?_map, ha]
    · rw [List.getElem?_map, List.getElem?_map, hb]
    · intro j hj1 hj2
      rw [List.getElem?_map, List.getElem?_map, ho j hj1 hj2]
  · intro hbad
    have hcomp : computeMoveUp cardId cards =
        .error (.InvalidMove "Card cannot be moved up") := by
      rcases hbad with ⟨hpos, hc0⟩ | hnm
      · have hfi : findIndex (fun c => c.id == cardId) cards = some 0 :=
          findIndex_eq_some_of hpos (by simpa using hc0) (fun j hj => by omega)
        unfold computeMoveUp
        rw [hfi]
        exact if_pos rfl
      · have hfi := findIndex_none_of_not_mem hnm
        unfold computeMoveUp
        rw [hfi]
    rw [moveCardUp_of_compute_error hcomp]
    exact ⟨hcomp, rfl, rfl⟩

/-- C3 witness. -/
theorem moveCardUp_correct_witness :
    (∃ ids, computeMoveUp "b"
        [⟨"a", "d", "ta", "ba", 0, 0, 0⟩, ⟨"b", "d", "tb", "bb", 1, 0, 0⟩] = .ok ids ∧
      ids.length = ([⟨"a", "d", "ta", "ba", 0, 0, 0⟩,
          ⟨"b", "d", "tb", "bb", 1, 0, 0⟩] : List Card).length ∧
      ids[0]? = (([⟨"a", "d", "ta", "ba", 0, 0, 0⟩,
          ⟨"b", "d", "tb", "bb", 1, 0, 0⟩] : List Card).map Card.id)[1]? ∧
      ids[1]? = (([⟨"a", "d", "ta", "ba", 0, 0, 0⟩,
          ⟨"b", "d", "tb", "bb", 1, 0, 0⟩] : List Card).map Card.id)[0]? ∧
      (∀ j, j ≠ 0 → j ≠ 1 → ids[j]? = (([⟨"a", "d", "ta", "ba", 0, 0, 0⟩,
          ⟨"b", "d", "tb", "bb", 1, 0, 0⟩] : List Card).map Card.id)[j]?) ∧
      ids.Perm (([⟨"a", "d", "ta", "ba", 0, 0, 0⟩,
          ⟨"b", "d", "tb", "bb", 1, 0, 0⟩] : List Card).map Card.id)) ∧
    computeMoveUp "zz"
        [⟨"a", "d", "ta", "ba", 0, 0, 0⟩, ⟨"b", "d", "tb", "bb", 1, 0, 0⟩] =
      .error (.InvalidMove "Card cannot be moved up") :=
  ⟨(moveCardUp_correct "u" "d" 0 true "b"
      [⟨"a", "d", "ta", "ba", 0, 0, 0⟩, ⟨"b", "d", "tb", "bb", 1, 0, 0⟩]
      ⟨[], []⟩ ⟨false, none⟩ (by decide)).1 1 (by decide) (by decide) (by decide),
   ((moveCardUp_correct "u" "d" 0 true "zz"
      [⟨"a", "d", "ta", "ba", 0, 0, 0⟩, ⟨"b", "d", "tb", "bb", 1, 0, 0⟩]
      ⟨[], []⟩ ⟨false, none⟩ (by decide)).2 (Or.inr (by decide))).1⟩

/-- C4: move-down fails with `InvalidMove` when the target identifier is not
found, when the target (in a duplicate-free list) sits at the last index,
or when the list is empty; otherwise, for a target at position i with
i < n-1, it returns the identifier sequence with positions i and i+1
swapped and every other position unchanged. -/
theorem moveCardDown_correct
    (cardId : String) (cards : List Card)
    (hnd : (cards.map Card.id).Nodup) :
    (∀ i, i + 1 < cards.length → (cards.getD i default).id = cardId →
      ∃ ids, computeMoveDown cardId cards = .ok ids ∧
        ids.length = cards.length ∧
        ids[i]? = (cards.map Card.id)[i + 1]? ∧
        ids[i + 1]? = (cards.map Card.id)[i]? ∧
        (∀ j, j ≠ i → j ≠ i + 1 → ids[j]? = (cards.map Card.id)[j]?)) ∧
    (cardId ∉ cards.map Card.id →
      computeMoveDown cardId cards = .error (.InvalidMove "Card cannot be moved down")) ∧
    (∀ i, i + 1 = cards.length → (cards.getD i default).id = cardId →
      computeMoveDown cardId cards = .error (.InvalidMove "Card cannot be moved down")) ∧
    (cards = [] →
      computeMoveDown cardId cards = .error (.InvalidMove "Card cannot be moved down")) := by
  refine ⟨?_, ?_, ?_, ?_⟩
  · intro i hi hc
    obtain ⟨hl, ha, hb, ho⟩ := swapWithNext_getElem? hi
    refine ⟨(swapWithNext cards i).map Card.id, computeMoveDown_swap hnd hi hc,
      by simp [hl], ?_, ?_, ?_⟩
    · rw [List.getElem?_map, List.getElem?_map, ha]
    · rw [List.getElem?_map, List.getElem?_map, hb]
    · intro j hj1 hj2
      rw [List.getElem?_map, List.getElem?_map, ho j hj1 hj2]
  · intro hnm
    unfold computeMoveDown
    rw [findIndex_none_of_not_mem hnm]
  · intro i hi hc
    have hfi := findIndex_at_pos hnd (by omega) hc
    unfold computeMoveDown
    rw [hfi]
    exact if_pos (by omega)
  · intro he
    subst he
    rfl

/-- C4 witness. -/
theorem moveCardDown_correct_witness :
    (∃ ids, computeMoveDown "a"
        [⟨"a", "d", "ta", "ba", 0, 0, 0⟩, ⟨"b", "d", "tb", "bb", 1, 0, 0⟩] = .ok ids ∧
      ids.length = ([⟨"a", "d", "ta", "ba", 0, 0, 0⟩,
          ⟨"b", "d", "tb", "bb", 1, 0, 0⟩] : List Card).length ∧
      ids[0]? = (([⟨"a", "d", "ta", "ba", 0, 0, 0⟩,
          ⟨"b", "d", "tb", "bb", 1, 0, 0⟩] : List Card).map Card.id)[1]? ∧
      ids[1]? = (([⟨"a", "d", "ta", "ba", 0, 0, 0⟩,
          ⟨"b", "d", "tb", "bb", 1, 0, 0⟩] : List Card).map Card.id)[0]? ∧
      (∀ j, j ≠ 0 → j ≠ 1 → ids[j]? = (([⟨"a", "d", "ta", "ba", 0, 0, 0⟩,
          ⟨"b", "d", "tb", "bb", 1, 0, 0⟩] : List Card).map Card.id)[j]?)) ∧
    computeMoveDown "zz"
        [⟨"a", "d", "ta", "ba", 0, 0, 0⟩, ⟨"b", "d", "tb", "bb", 1, 0, 0⟩] =
      .error (.InvalidMove "Card cannot be moved down") ∧
    computeMoveDown "b"
        [⟨"a", "d", "ta", "ba", 0, 0, 0⟩, ⟨"b", "d", "tb", "bb", 1, 0, 0⟩] =
      .error (.InvalidMove "Card cannot be moved down") ∧
    computeMoveDown "x" ([] : List Card) =
      .error (.InvalidMove "Card cannot be moved down") :=
  ⟨(moveCardDown_correct "a"
      [⟨"a", "d", "ta", "ba", 0, 0, 0⟩, ⟨"b", "d", "tb", "bb", 1, 0, 0⟩]
      (by decide)).1 0 (by decide) (by decide),
   (moveCardDown_correct "zz"
      [⟨"a", "d", "ta", "ba", 0, 0, 0⟩, ⟨"b", "d", "tb", "bb", 1, 0, 0⟩]
      (by decide)).2.1 (by decide),
   (moveCardDown_correct "b"
      [⟨"a", "d", "ta", "ba", 0, 0, 0⟩, ⟨"b", "d", "tb", "bb", 1, 0, 0⟩]
      (by decide)).2.2.1 1 (by decide) (by decide),
   (moveCardDown_correct "x" [] (by decide)).2.2.2 rfl⟩

/-- C8: for a list of n ≥ 2 distinct cards with the target at position i
(1 ≤ i ≤ n-1), move-up yields the adjacent swap and move-down applied to
the resulting list restores exactly the original identifier ordering. -/
theorem moveUp_then_moveDown_roundtrip
    (cardId : String) (cards : List Card) (i : Nat)
    (hnd : (cards.map Card.id).Nodup)
    (hi : i < cards.length) (h1 : 1 ≤ i) (hc : (cards.getD i default).id = cardId) :
    computeMoveUp cardId cards = .ok ((swapWithPrev cards i).map Card.id) ∧
    computeMoveDown cardId (swapWithPrev cards i) = .ok (cards.map Card.id) := by
  refine ⟨computeMoveUp_swap hnd hi h1 hc, ?_⟩
  obtain ⟨m, rfl⟩ : ∃ m, i = m + 1 := ⟨i - 1, by omega⟩
  obtain ⟨hl, ha, hb, ho⟩ := swapWithPrev_getElem? hi h1
  have hm : m + 1 - 1 = m := by omega
  rw [hm] at ha hb
  have hndl : ((swapWithPrev cards (m + 1)).map Card.id).Nodup :=
    (((swapWithPrev_perm hi h1).map Card.id).nodup_iff).mpr hnd
  have hml : m + 1 < (swapWithPrev cards (m + 1)).length := by rw [hl]; omega
  have hgl : (swapWithPrev cards (m + 1))[m]? =
      some ((swapWithPrev cards (m + 1)).getD m default) :=
    getElem?_eq_some_getD (by omega)
  have hgc : cards[m + 1]? = some (cards.getD (m + 1) default) :=
    getElem?_eq_some_getD hi
  have hval : (swapWithPrev cards (m + 1)).getD m default =
      cards.getD (m + 1) default := by
    have := hgl.symm.trans (ha.trans hgc)
    exact Option.some.inj this
  have hcl : ((swapWithPrev cards (m + 1)).getD m default).id = cardId := by
    rw [hval]; exact hc
  obtain ⟨hl2, ha2, hb2, ho2⟩ := swapWithNext_getElem? hml
  have hswap : swapWithNext (swapWithPrev cards (m + 1)) m = cards := by
    apply List.ext_getElem?
    intro n
    by_cases hn1 : n = m
    · subst hn1
      rw [ha2, hb]
    · by_cases hn2 : n = m + 1
      · subst hn2
        rw [hb2, ha]
      · rw [ho2 n hn1 hn2, ho n (by omega) (by omega)]
  rw [computeMoveDown_swap hndl hml hcl, hswap]

/-- C8 witness. -/
theorem moveUp_then_moveDown_roundtrip_witness :
    computeMoveUp "b"
        [⟨"a", "d", "ta", "ba", 0, 0, 0⟩, ⟨"b", "d", "tb", "bb", 1, 0, 0⟩] =
      .ok ((swapWithPrev
        [⟨"a", "d", "ta", "ba", 0, 0, 0⟩, ⟨"b", "d", "tb", "bb", 1, 0, 0⟩] 1).map Card.id) ∧
    computeMoveDown "b"
        (swapWithPrev
          [⟨"a", "d", "ta", "ba", 0, 0, 0⟩, ⟨"b", "d", "tb", "bb", 1, 0, 0⟩] 1) =
      .ok (([⟨"a", "d", "ta", "ba", 0, 0, 0⟩,
          ⟨"b", "d", "tb", "bb", 1, 0, 0⟩] : List Card).map Card.id) :=
  moveUp_then_moveDown_roundtrip "b"
    [⟨"a", "d", "ta", "ba", 0, 0, 0⟩, ⟨"b", "d", "tb", "bb", 1, 0, 0⟩] 1
    (by decide) (by decide) (by decide) (by decide)

theorem updateCardDoc_cards {cid : String} {f : Card → Card} {st st' : Store}
    (h : updateCardDoc cid f st = some st') :
    st'.cards = st.cards.map (fun c => if c.id == cid then f c else c) := by
  unfold updateCardDoc at h
  by_cases hany : st.cards.any (fun c => c.id == cid)
  · rw [if_pos hany] at h
    cases h
    rfl
  · rw [if_neg hany] at h
    exact Option.noConfusion h

theorem updateDeckDoc_cards {did : String} {f : Deck → Deck} {st st' : Store}
    (h : updateDeckDoc did f st = some st') :
    st'.cards = st.cards := by
  unfold updateDeckDoc at h
  by_cases hany : st.decks.any (fun d => d.id == did)
  · rw [if_pos hany] at h
    cases h
    rfl
  · rw [if_neg hany] at h
    exact Option.noConfusion h

/-- C6 (amended): once authenticated, the composed move operations run the
ordering computation first — an `InvalidMove` failure aborts with no write
and no commit attempt — and otherwise hand the computed order straight to
`reorderCards`, propagating its result and store effect unchanged. -/
theorem moveCard_error_propagation
    (u deckId : String) (now : Nat) (pOk : Bool) (cardId : String)
    (cards : List Card) (st : Store) (ui : UiState) :
    (∀ e, computeMoveUp cardId cards = .error e →
      moveCardUp (some u) deckId now pOk cardId cards st ui =
        ⟨.error e, st, ui, []⟩ ∧ e = .InvalidMove "Card cannot be moved up") ∧
    (∀ ids, computeMoveUp cardId cards = .ok ids →
      (moveCardUp (some u) deckId now pOk cardId cards st ui).res =
        (reorderCards (some u) deckId now pOk ids st ⟨true, none⟩).res ∧
      (moveCardUp (some u) deckId now pOk cardId cards st ui).store =
        (reorderCards (some u) deckId now pOk ids st ⟨true, none⟩).store) ∧
    (∀ e, computeMoveDown cardId cards = .error e →
      moveCardDown (some u) deckId now pOk cardId cards st ui =
        ⟨.error e, st, ui, []⟩ ∧ e = .InvalidMove "Card cannot be moved down") ∧
    (∀ ids, computeMoveDown cardId cards = .ok ids →
      (moveCardDown (some u) deckId now pOk cardId cards st ui).res =
        (reorderCards (some u) deckId now pOk ids st ⟨true, none⟩).res ∧
      (moveCardDown (some u) deckId now pOk cardId cards st ui).store =
        (reorderCards (some u) deckId now pOk ids st ⟨true, none⟩).store) := by
  refine ⟨?_, ?_, ?_, ?_⟩
  · intro e he
    exact ⟨moveCardUp_of_compute_error he, computeMoveUp_error_shape he⟩
  · intro ids hids
    exact moveCardUp_of_compute_ok hids
  · intro e he
    exact ⟨moveCardDown_of_compute_error he, computeMoveDown_error_shape he⟩
  · intro ids hids
    exact moveCardDown_of_compute_ok hids

/-- C6 witness. -/
theorem moveCard_error_propagation_witness :
    moveCardUp (some "u") "d" 0 true "x" [] ⟨[], []⟩ ⟨false, none⟩ =
      ⟨.error (.InvalidMove "Card cannot be moved up"), ⟨[], []⟩, ⟨false, none⟩, []⟩ ∧
    Err.InvalidMove "Card cannot be moved up" = .InvalidMove "Card cannot be moved up" :=
  (moveCard_error_propagation "u" "d" 0 true "x" [] ⟨[], []⟩ ⟨false, none⟩).1
    (.InvalidMove "Card cannot be moved up") (by decide)

/-- C6 counterexample: an unauthenticated call with an absent target fails
with `Unauthenticated`, not `InvalidMove` — the auth guard runs before the
ordering computation, contradicting the claim's "including when the caller
is unauthenticated". -/
theorem moveCardUp_unauthenticated_cex :
    (moveCardUp none "d" 0 true "x" [] ⟨[], []⟩ ⟨false, none⟩).res =
      .error .Unauthenticated ∧
    ¬ ∃ m, (moveCardUp none "d" 0 true "x" [] ⟨[], []⟩ ⟨false, none⟩).res =
      .error (.InvalidMove m) := by
  refine ⟨rfl, ?_⟩
  rintro ⟨m, hm⟩
  simp [moveCardUp] at hm

/-- C10: `updateCard` can never change any stored card's `id`, `deckId`,
`orderIndex` or `createdAt`: the payload type `CardUpdate` (the embedding of
`Partial<Omit<Card, 'id' | 'deckId' | 'createdAt' | 'orderIndex'>>`)
statically excludes those fields, and on every path — success, guard
failure or storage failure — every stored card keeps all four. -/
theorem updateCard_frame
    (user : Option String) (deckId : String) (now : Nat) (pOk : Bool)
    (cardId : String) (updates : CardUpdate) (st : Store) (ui : UiState) :
    (updateCard user deckId now pOk cardId updates st ui).store.cards.map
        (fun c => (c.id, c.deckId, c.orderIndex, c.createdAt)) =
      st.cards.map (fun c => (c.id, c.deckId, c.orderIndex, c.createdAt)) := by
  have hcases :
      (updateCard user deckId now pOk cardId updates st ui).store.cards = st.cards ∨
      (updateCard user deckId now pOk cardId updates st ui).store.cards =
        st.cards.map
          (fun c => if c.id == cardId then applyCardUpdate now updates c else c) := by
    unfold updateCard
    split
    · exact Or.inl rfl
    · split
      · exact Or.inl rfl
      · split
        · split
          · exact Or.inl rfl
          · rename_i st1 heq
            split
            · rename_i st2 heq2
              exact Or.inr (((updateDeckDoc_cards heq2).trans (updateCardDoc_cards heq)))
            · exact Or.inr (updateCardDoc_cards heq)
        · exact Or.inl rfl
  rcases hcases with h | h
  · rw [h]
  · rw [h, List.map_map]
    congr 1
    funext c
    by_cases hc : c.id == cardId <;> simp [Function.comp, applyCardUpdate, hc]

theorem storageWhileBusy_append_clear :
    ∀ (l : List Event) (b : Bool) (m : Option String) (b₂ : Bool),
      storageWhileBusy b l = true →
      storageWhileBusy b (l ++ [Event.setErr m, Event.setLoading b₂]) = true := by
  intro l
  induction l with
  | nil => intro b m b₂ _; rfl
  | cons e rest ih =>
    intro b m b₂ h
    cases e with
    | setLoading b₁ => exact ih b₁ m b₂ h
    | setErr m₁ => exact ih b m b₂ h
    | storage =>
      have h12 := Bool.and_eq_true_iff.mp h
      have hb := h12.1
      subst hb
      show (true && storageWhileBusy true (rest ++ _)) = true
      rw [ih true m b₂ h12.2]
      rfl

theorem reorderCards_trace_busy (user : Option String) (deckId : String)
    (now : Nat) (pOk : Bool) (cardIds : List String) (st : Store) (ui : UiState)
    (b : Bool) :
    storageWhileBusy b (reorderCards user deckId now pOk cardIds st ui).trace = true := by
  unfold reorderCards
  split
  · rfl
  · split
    · rfl
    · split
      · rfl
      · rfl

theorem reorderCards_ui_of_ok (user : Option String) (deckId : String)
    (now : Nat) (pOk : Bool) (cardIds : List String) (st : Store) (ui : UiState) :
    (reorderCards user deckId now pOk cardIds st ui).res = .ok () →
    (reorderCards user deckId now pOk cardIds st ui).ui = ⟨false, none⟩ := by
  unfold reorderCards
  split
  · exact fun h => Except.noConfusion h
  · split
    · exact fun h => Except.noConfusion h
    · split
      · exact fun _ => rfl
      · exact fun h => Except.noConfusion h

theorem reorderCards_loading_clear (user : Option String) (deckId : String)
    (now : Nat) (pOk : Bool) (cardIds : List String) (st : Store) (ui : UiState)
    (hui : ui.loading = false) :
    (reorderCards user deckId now pOk cardIds st ui).ui.loading = false := by
  unfold reorderCards
  split
  · exact hui
  · split
    · exact hui
    · split
      · rfl
      · rfl

theorem createCard_busy (user : Option String) (deckId : String) (now : Nat)
    (pOk : Bool) (newId title body : String) (st : Store) (ui : UiState)
    (hui : ui.loading = false) :
    (createCard user deckId now pOk newId title body st ui).ui.loading = false ∧
    storageWhileBusy ui.loading
      (createCard user deckId now pOk newId title body st ui).trace = true := by
  unfold createCard
  split
  · exact ⟨hui, rfl⟩
  · split
    · exact ⟨hui, rfl⟩
    · split
      · exact ⟨hui, rfl⟩
      · split
        · dsimp only
          split
          · exact ⟨rfl, rfl⟩
          · exact ⟨rfl, rfl⟩
        · exact ⟨rfl, rfl⟩

theorem updateCard_busy (user : Option String) (deckId : String) (now : Nat)
    (pOk : Bool) (cardId : String) (updates : CardUpdate) (st : Store) (ui : UiState)
    (hui : ui.loading = false) :
    (updateCard user deckId now pOk cardId updates st ui).ui.loading = false ∧
    storageWhileBusy ui.loading
      (updateCard user deckId now pOk cardId updates st ui).trace = true := by
  unfold updateCard
  split
  · exact ⟨hui, rfl⟩
  · split
    · exact ⟨hui, rfl⟩
    · split
      · split
        · exact ⟨rfl, rfl⟩
        · split
          · exact ⟨rfl, rfl⟩
          · exact ⟨rfl, rfl⟩
      · exact ⟨rfl, rfl⟩

theorem deleteCard_busy (user : Option String) (deckId : String) (now : Nat)
    (pOk : Bool) (cardId : String) (st : Store) (ui : UiState)
    (hui : ui.loading = false) :
    (deleteCard user deckId now pOk cardId st ui).ui.loading = false ∧
    storageWhileBusy ui.loading
      (deleteCard user deckId now pOk cardId st ui).trace = true := by
  unfold deleteCard
  split
  · exact ⟨hui, rfl⟩
  · split
    · exact ⟨hui, rfl⟩
    · split
      · dsimp only
        split
        · exact ⟨rfl, rfl⟩
        · exact ⟨rfl, rfl⟩
      · exact ⟨rfl, rfl⟩

theorem moveCardUp_busy (user : Option String) (deckId : String) (now : Nat)
    (pOk : Bool) (cardId : String) (cards : List Card) (st : Store) (ui : UiState)
    (hui : ui.loading = false) :
    (moveCardUp user deckId now pOk cardId cards st ui).ui.loading = false ∧
    storageWhileBusy ui.loading
      (moveCardUp user deckId now pOk cardId cards st ui).trace = true := by
  unfold moveCardUp
  split
  · exact ⟨hui, rfl⟩
  · rename_i u
    split
    · exact ⟨hui, rfl⟩
    · rename_i ids hcomp
      dsimp only
      cases hres : (reorderCards (some u) deckId now pOk ids st ⟨true, none⟩).res with
      | ok a =>
        constructor
        · show (reorderCards (some u) deckId now pOk ids st ⟨true, none⟩).ui.loading = false
          rw [reorderCards_ui_of_ok (some u) deckId now pOk ids st ⟨true, none⟩
            (by cases a; exact hres)]
        · exact reorderCards_trace_busy (some u) deckId now pOk ids st ⟨true, none⟩ true
      | error e =>
        constructor
        · rfl
        · exact storageWhileBusy_append_clear _ true _ false
            (reorderCards_trace_busy (some u) deckId now pOk ids st ⟨true, none⟩ true)

theorem moveCardDown_busy (user : Option String) (deckId : String) (now : Nat)
    (pOk : Bool) (cardId : String) (cards : List Card) (st : Store) (ui : UiState)
    (hui : ui.loading = false) :
    (moveCardDown user deckId now pOk cardId cards st ui).ui.loading = false ∧
    storageWhileBusy ui.loading
      (moveCardDown user deckId now pOk cardId cards st ui).trace = true := by
  unfold moveCardDown
  split
  · exact ⟨hui, rfl⟩
  · rename_i u
    split
    · exact ⟨hui, rfl⟩
    · rename_i ids hcomp
      dsimp only
      cases hres : (reorderCards (some u) deckId now pOk ids st ⟨true, none⟩).res with
      | ok a =>
        constructor
        · show (reorderCards (some u) deckId now pOk ids st ⟨true, none⟩).ui.loading = false
          rw [reorderCards_ui_of_ok (some u) deckId now pOk ids st ⟨true, none⟩
            (by cases a; exact hres)]
        · exact reorderCards_trace_busy (some u) deckId now pOk ids st ⟨true, none⟩ true
      | error e =>
        constructor
        · rfl
        · exact storageWhileBusy_append_clear _ true _ false
            (reorderCards_trace_busy (some u) deckId now pOk ids st ⟨true, none⟩ true)

theorem reorderCards_fail_rethrow (u deckId : String) (now : Nat)
    (cardIds : List String) (st : Store) (ui : UiState) (hne : cardIds ≠ []) :
    (reorderCards (some u) deckId now false cardIds st ui).res =
      .error (.PersistenceError "Failed to reorder cards") ∧
    (reorderCards (some u) deckId now false cardIds st ui).ui.loading = false := by
  unfold reorderCards
  rw [if_neg (by simpa using hne), if_neg (by simp)]
  exact ⟨rfl, rfl⟩

/-- C9: for every operation (create, update, delete, reorder, move up, move
down), starting from a clear busy flag, the flag is false once the call
resolves — success or failure — every awaited storage round trip in the
call's trace happens while the flag is asserted, and a failed reorder
commit both rethrows the `PersistenceError` to the caller and clears the
flag. -/
theorem loading_flag_discipline
    (user : Option String) (u deckId : String) (now : Nat) (pOk : Bool)
    (newId title body cardId : String) (updates : CardUpdate)
    (cardIds : List String) (cards : List Card) (st : Store) (ui : UiState)
    (hui : ui.loading = false) :
    ((createCard user deckId now pOk newId title body st ui).ui.loading = false ∧
      storageWhileBusy ui.loading
        (createCard user deckId now pOk newId title body st ui).trace = true) ∧
    ((updateCard user deckId now pOk cardId updates st ui).ui.loading = false ∧
      storageWhileBusy ui.loading
        (updateCard user deckId now pOk cardId updates st ui).trace = true) ∧
    ((deleteCard user deckId now pOk cardId st ui).ui.loading = false ∧
      storageWhileBusy ui.loading
        (deleteCard user deckId now pOk cardId st ui).trace = true) ∧
    ((reorderCards user deckId now pOk cardIds st ui).ui.loading = false ∧
      storageWhileBusy ui.loading
        (reorderCards user deckId now pOk cardIds st ui).trace = true) ∧
    ((moveCardUp user deckId now pOk cardId cards st ui).ui.loading = false ∧
      storageWhileBusy ui.loading
        (moveCardUp user deckId now pOk cardId cards st ui).trace = true) ∧
    ((moveCardDown user deckId now pOk cardId cards st ui).ui.loading = false ∧
      storageWhileBusy ui.loading
        (moveCardDown user deckId now pOk cardId cards st ui).trace = true) ∧
    (cardIds ≠ [] →
      (reorderCards (some u) deckId now false cardIds st ui).res =
        .error (.PersistenceError "Failed to reorder cards") ∧
      (reorderCards (some u) deckId now false cardIds st ui).ui.loading = false) :=
  ⟨createCard_busy user deckId now pOk newId title body st ui hui,
   updateCard_busy user deckId now pOk cardId updates st ui hui,
   deleteCard_busy user deckId now pOk cardId st ui hui,
   ⟨reorderCards_loading_clear user deckId now pOk cardIds st ui hui,
    reorderCards_trace_busy user deckId now pOk cardIds st ui ui.loading⟩,
   moveCardUp_busy user deckId now pOk cardId cards st ui hui,
   moveCardDown_busy user deckId now pOk cardId cards st ui hui,
   fun hne => reorderCards_fail_rethrow u deckId now cardIds st ui hne⟩

/-- C9 witness. -/
theorem loading_flag_discipline_witness :
    ((createCard (some "u") "d" 1 true "n" "t" "b" ⟨[], []⟩ ⟨false, none⟩).ui.loading =
        false ∧
      storageWhileBusy (⟨false, none⟩ : UiState).loading
        (createCard (some "u") "d" 1 true "n" "t" "b" ⟨[], []⟩ ⟨false, none⟩).trace =
        true) ∧
    ((reorderCards (some "u") "d" 1 false ["a"] ⟨[], []⟩ ⟨false, none⟩).res =
        .error (.PersistenceError "Failed to reorder cards") ∧
      (reorderCards (some "u") "d" 1 false ["a"] ⟨[], []⟩ ⟨false, none⟩).ui.loading =
        false) :=
  ⟨(loading_flag_discipline (some "u") "u" "d" 1 true "n" "t" "b" "a" ⟨none, none, none⟩
      ["a"] [] ⟨[], []⟩ ⟨false, none⟩ rfl).1,
   (loading_flag_discipline (some "u") "u" "d" 1 false "n" "t" "b" "a" ⟨none, none, none⟩
      ["a"] [] ⟨[], []⟩ ⟨false, none⟩ rfl).2.2.2.2.2.2 (by decide)⟩
